import Mathlib

/-!
Verification of `lale/lib/lale/smac.py` (the `SMACImpl` optimization adapter).

The Python module is a thin adapter that wraps a Lale pipeline as a black-box
objective for the external SMAC optimizer.  We shallowly embed its control flow:

* Python exceptions become an explicit `PyExc` type; fallible calls return
  `Except PyExc α`; `try/except SomeError` becomes a `match` that only converts
  the matching constructor.
* External collaborators (sklearn's `check_cv`, `train_test_split` machinery,
  the SMAC optimizer itself, and repository helpers that live outside this
  file, such as `lale.helpers.cross_val_score_track_trials` and
  `lale.search.lale_smac`) are parameters collected in a `World` structure, or
  are modelled from the specification where noted in doc comments.
* Mutable attributes of the `SMACImpl` object (`_best_estimator`, `trials`)
  form the `State` record; `_best_estimator` distinguishes "attribute never
  assigned" (`none`, where Python attribute access raises `AttributeError`)
  from "assigned the value `None`" (`some none`).
* Datasets: a row of the training set pairs one `X` row with its `y` label, so
  `(X_train, y_train)` is embedded as `List (Nat × Int)` via `zipRows`;
  `train_test_split` permutes and splits the rows, keeping `X` and `y` aligned
  exactly as sklearn does.
* Logging: calls to `logger.debug` / `logger.warning` are collected in a
  `List LogEntry`; the one log message that interpolates
  `trainable.to_json()` records that serialization in its entry.
-/

/-- Python exceptions relevant to the adapter's `try`/`except` structure. -/
inductive PyExc : Type where
  | valueError : PyExc
  | attributeError : PyExc
  | budgetExhausted : PyExc
  | notImplementedError : PyExc
  | assertionError : PyExc
  | other : Nat → PyExc
deriving DecidableEq, Repr

/-- Decidable equality for `Except`, needed to evaluate theorems about the
embedded computations on concrete inputs. -/
def exceptDecEq {ε α : Type} [DecidableEq ε] [DecidableEq α] :
    (a b : Except ε α) → Decidable (a = b)
  | .ok x, .ok y =>
    if h : x = y then .isTrue (by rw [h])
    else .isFalse (fun he => h (by cases he; rfl))
  | .ok _, .error _ => .isFalse (fun he => by cases he)
  | .error _, .ok _ => .isFalse (fun he => by cases he)
  | .error e, .error e2 =>
    if h : e = e2 then .isTrue (by rw [h])
    else .isFalse (fun he => h (by cases he; rfl))

instance {ε α : Type} [DecidableEq ε] [DecidableEq α] : DecidableEq (Except ε α) :=
  exceptDecEq

/-- Severity of a message sent to the module's `logger`. -/
inductive LogLevel : Type where
  | debug : LogLevel
  | warning : LogLevel
deriving DecidableEq, Repr

/-- One log message.  `pipelineJson` records the `trainable.to_json()`
serialization when the message interpolates one, as in
`logger.debug("Error {} with pipeline:{}".format(e, trainable.to_json()))`. -/
structure LogEntry : Type where
  level : LogLevel
  pipelineJson : Option Nat
deriving DecidableEq, Repr

/-- Status SMAC records for one executed trial. -/
inductive TrialStatus : Type where
  | success : TrialStatus
  | crashed : TrialStatus
deriving DecidableEq, Repr

/-- One entry of SMAC's run history: the sampled configuration, the cost the
optimizer recorded for it, and whether the objective ran or crashed. -/
structure RunRecord : Type where
  config : Nat
  cost : Int
  status : TrialStatus
deriving DecidableEq, Repr

/-- The cost SMAC assigns to a crashed trial (`cost_for_crash` = MAXINT, as the
module's own warning message states). -/
def MAXINT : Int := 2147483647

/-- The triple `(cv_score, logloss, execution_time)` that `smac_train_test`
returns. -/
structure TrialOutput : Type where
  cv_score : Int
  logloss : Int
  execution_time : Nat
deriving DecidableEq, Repr

/-- The `return_dict` built by the objective `f`. -/
structure ReturnDict : Type where
  loss : Int
  time : Nat
  log_loss : Int
deriving DecidableEq, Repr

/-- Hyperparameters of `SMACImpl` fixed at construction (`__init__`).  The
configuration space produced by `get_smac_space` is part of the optimizer
model (`World.sample`); `scoring` and the cv object are opaque identifiers. -/
structure Params : Type where
  max_evals : Nat
  cv : Nat
  handle_cv_failure : Bool
  scoring : Nat
  best_score : Int
  max_opt_time : Option Nat
deriving DecidableEq, Repr

/-- Mutable attributes of a `SMACImpl` object.  `best_estimator = none` means
the `_best_estimator` attribute was never assigned (Python attribute access
raises `AttributeError`); `some none` means it was assigned `None`;
`some (some t)` means it holds the trained pipeline `t`.  `trials` is `None`
in `__init__` and reassigned only inside `fit`. -/
structure State : Type where
  best_estimator : Option (Option Nat)
  trials : Option (List RunRecord)
deriving DecidableEq, Repr

/-- A freshly constructed `SMACImpl`: `_best_estimator` unset, `trials = None`. -/
def State.init : State := ⟨none, none⟩

/-- External collaborators of the adapter, as opaque but executable functions.
Estimators, trainables, trained pipelines, configurations, scorers and
probability arrays are identified by `Nat` tokens; rows of the training set
are `Nat × Int` pairs (one `X` row and its `y` label). -/
structure World : Type where
  /-- sklearn `check_cv(cv, y=y_train, classifier=True)`; may raise. -/
  check_cv : Nat → List Int → Except PyExc Nat
  /-- Behavior of `lale.helpers.cross_val_score_track_trials` on
  `(trainable, cv object, rows, scoring)`: either an exception, or a score,
  an optional log-loss (absent when not computable for the estimator type),
  and an execution time.  See `cross_val_score_track_trials` below. -/
  cvRun : Nat → Nat → List (Nat × Int) → Nat → Except PyExc (Int × Option Int × Nat)
  /-- The permutation sklearn's `train_test_split` draws from the global
  (unseeded) numpy RNG; the first argument is the ambient global RNG state. -/
  shuffle : Nat → List (Nat × Int) → List (Nat × Int)
  /-- `trainable.fit(rows)`: train on the given rows; may raise. -/
  fitOp : Nat → List (Nat × Int) → Except PyExc Nat
  /-- sklearn `check_scoring(trainable, scoring)`; yields a scorer. -/
  check_scoring : Nat → Nat → Except PyExc Nat
  /-- Apply a scorer to a trained pipeline and validation rows. -/
  applyScorer : Nat → Nat → List (Nat × Int) → Except PyExc Int
  /-- `trained.predict_proba(validation rows)`; may raise. -/
  predict_proba : Nat → List (Nat × Int) → Except PyExc Nat
  /-- sklearn `log_loss(y_true, y_pred)`; may raise. -/
  log_loss : List (Nat × Int) → Nat → Except PyExc Int
  /-- Wall-clock duration of the fallback fit-and-score, `time.time() - start`. -/
  elapsed : Nat → Nat
  /-- `trainable.to_json()` serialization. -/
  to_json : Nat → Nat
  /-- The configuration SMAC's seeded strategy samples for trial `i` under a
  given rng seed (the module passes `np.random.RandomState(42)`). -/
  sample : Nat → Nat → Nat
  /-- Whether the wall-clock budget is found exhausted before trial `i`
  (checked by SMAC between trials only when a `wallclock_limit` is set). -/
  budgetHitAt : Nat → Bool
  /-- An unrecoverable failure inside SMAC construction or `optimize`,
  when any. -/
  smacInternalError : Option PyExc
  /-- The configuration SMAC reports when no trial ran. -/
  defaultConfig : Nat
  /-- `lale.search.lale_smac.lale_trainable_op_from_config(estimator, config)`:
  decode a configuration into a trainable pipeline; may raise. -/
  lale_trainable_op_from_config : Nat → Nat → Except PyExc Nat
  /-- `trained.predict(X_eval)`; may raise. -/
  predictOp : Nat → Nat → Except PyExc Nat
  /-- `lale.sklearn_compat.make_sklearn_compat(result)`. -/
  make_sklearn_compat : Nat → Nat

/-- Pair `X_train` with `y_train` row by row, as the dataset the adapter
threads through training, splitting and scoring. -/
def zipRows (X : List Nat) (y : List Int) : List (Nat × Int) := X.zip y

/-- The rng seed `fit` hands to SMAC: `np.random.RandomState(42)`. -/
def smacSeed : Nat := 42

/-- Modelled from the spec: `lale.helpers.cross_val_score_track_trials` (a
repository helper outside this file) runs cross-validated scoring and returns
`(score, logloss, execution_time)`, where the auxiliary log-loss value is `0`
when the log loss cannot be computed for the estimator type. -/
def cross_val_score_track_trials (w : World) (trainable cvObj : Nat)
    (rows : List (Nat × Int)) (scoring : Nat) : Except PyExc (Int × Int × Nat) :=
  match w.cvRun trainable cvObj rows scoring with
  | .error e => .error e
  | .ok (score, llOpt, t) => .ok (score, llOpt.getD 0, t)

/-- Number of validation rows of `train_test_split(X, y, test_size=0.20)`:
sklearn takes `ceil(0.20 * n)` rows for the test part. -/
def nTestRows (n : Nat) : Nat := (n + 4) / 5

/-- The inner function `smac_train_test(trainable, X_train, y_train)` of
`SMACImpl.fit`.  On a cross-validation failure with `handle_cv_failure` set,
it falls back to a single randomized train/validation split (sklearn places
the test part first in the shuffled order); otherwise it logs the error with
the pipeline serialization and re-raises. -/
def smac_train_test (w : World) (p : Params) (cvObj globalRng trainable : Nat)
    (rows : List (Nat × Int)) : Except PyExc TrialOutput × List LogEntry :=
  match cross_val_score_track_trials w trainable cvObj rows p.scoring with
  | .ok (cv_score, logloss, execution_time) =>
    (.ok ⟨cv_score, logloss, execution_time⟩, [⟨.debug, none⟩])
  | .error e =>
    if p.handle_cv_failure then
      let shuffled := w.shuffle globalRng rows
      let X_validation := shuffled.take (nTestRows rows.length)
      let X_train_part := shuffled.drop (nTestRows rows.length)
      match w.fitOp trainable X_train_part with
      | .error e2 => (.error e2, [])
      | .ok trained =>
        match w.check_scoring trainable p.scoring with
        | .error e2 => (.error e2, [])
        | .ok scorer =>
          match w.applyScorer scorer trained X_validation with
          | .error e2 => (.error e2, [])
          | .ok cv_score =>
            match w.predict_proba trained X_validation with
            | .error e2 => (.error e2, [])
            | .ok y_pred_proba =>
              match w.log_loss X_validation y_pred_proba with
              | .ok logloss =>
                (.ok ⟨cv_score, logloss, w.elapsed trainable⟩, [])
              | .error _ =>
                (.ok ⟨cv_score, 0, w.elapsed trainable⟩, [⟨.debug, none⟩])
    else
      (.error e, [⟨.debug, some (w.to_json trainable)⟩])

/-- The `return_dict` the inner objective `f` builds from a successful
`smac_train_test` call; on failure `f` logs a warning and re-raises. -/
def f_return_dict (w : World) (p : Params) (cvObj globalRng trainable : Nat)
    (rows : List (Nat × Int)) : Except PyExc ReturnDict × List LogEntry :=
  match smac_train_test w p cvObj globalRng trainable rows with
  | (.ok out, logs) =>
    (.ok ⟨p.best_score - out.cv_score, out.execution_time, out.logloss⟩, logs)
  | (.error e, logs) => (.error e, logs ++ [⟨.warning, none⟩])

/-- The inner objective `f(trainable)` of `SMACImpl.fit`: it returns
`return_dict['loss']` on success and propagates the exception otherwise. -/
def f (w : World) (p : Params) (cvObj globalRng trainable : Nat)
    (rows : List (Nat × Int)) : Except PyExc Int × List LogEntry :=
  match f_return_dict w p cvObj globalRng trainable rows with
  | (.ok d, logs) => (.ok d.loss, logs)
  | (.error e, logs) => (.error e, logs)

/-- Modelled from the spec: `lale.search.lale_smac.lale_op_smac_tae` wraps the
estimator and the objective `f` as SMAC's target-algorithm runner for one
trial: it decodes the sampled configuration into a trainable pipeline and
invokes `f`; SMAC records an exception escaping the objective as a crashed
trial with cost MAXINT (`abort_on_first_run_crash` is `False`). -/
def lale_op_smac_tae (w : World) (p : Params) (cvObj globalRng estimator : Nat)
    (rows : List (Nat × Int)) (config : Nat) : RunRecord × List LogEntry :=
  match w.lale_trainable_op_from_config estimator config with
  | .error _ => (⟨config, MAXINT, .crashed⟩, [])
  | .ok trainable =>
    match f w p cvObj globalRng trainable rows with
    | (.ok loss, logs) => (⟨config, loss, .success⟩, logs)
    | (.error _, logs) => (⟨config, MAXINT, .crashed⟩, logs)

/-- Modelled from the spec: SMAC's sequential trial loop.  Starting at trial
index `i` with `fuel` evaluations remaining (the scenario's runcount-limit is
`max_evals`), it checks the wall-clock budget between trials (only when a
`wallclock_limit` was set), samples a configuration with its seeded strategy,
runs the target algorithm, and appends to the run history.  The boolean result
records whether `BudgetExhaustedException` was raised. -/
def searchLoop (w : World) (p : Params) (cvObj globalRng estimator : Nat)
    (rows : List (Nat × Int)) : Nat → Nat → List RunRecord × List LogEntry × Bool
  | _, 0 => ([], [], false)
  | i, fuel + 1 =>
    if p.max_opt_time.isSome && w.budgetHitAt i then ([], [], true)
    else
      let r := lale_op_smac_tae w p cvObj globalRng estimator rows
        (w.sample smacSeed i)
      let rest := searchLoop w p cvObj globalRng estimator rows (i + 1) fuel
      (r.1 :: rest.1, r.2 ++ rest.2.1, rest.2.2)

/-- The record of minimal cost in a run history (first among ties), via a left
fold as SMAC's incumbent tracking does. -/
def argminRecord : List RunRecord → Option RunRecord
  | [] => none
  | r :: rs => some (rs.foldl (fun best x => if x.cost < best.cost then x else best) r)

/-- The configuration SMAC's `optimize` returns: that of the minimum-cost
record, or the default configuration when no trial ran. -/
def incumbentOf (hist : List RunRecord) (dflt : Nat) : Nat :=
  match argminRecord hist with
  | none => dflt
  | some r => r.config

/-- Outcome of `smac.optimize()` together with `smac.get_runhistory()`:
either the incumbent configuration (normal return), the
`BudgetExhaustedException`, or an unrecoverable internal failure. -/
inductive OptResult : Type where
  | done : Nat → List RunRecord → List LogEntry → OptResult
  | budget : List RunRecord → List LogEntry → OptResult
  | failed : PyExc → List LogEntry → OptResult
deriving DecidableEq, Repr

/-- Modelled from the spec: constructing SMAC over the scenario
(runcount-limit `max_evals`, optional `wallclock_limit`, seeded rng) and
calling `optimize()`.  It returns the minimum-cost configuration, raises
`BudgetExhaustedException` when the wall-clock budget is exhausted, or raises
on an internal failure. -/
def smacOptimize (w : World) (p : Params) (cvObj globalRng estimator : Nat)
    (rows : List (Nat × Int)) : OptResult :=
  match w.smacInternalError with
  | some e => .failed e []
  | none =>
    match searchLoop w p cvObj globalRng estimator rows 0 p.max_evals with
    | (hist, logs, true) => .budget hist logs
    | (hist, logs, false) => .done (incumbentOf hist w.defaultConfig) hist logs

/-- `SMACImpl.fit(X_train, y_train)`.  `check_cv` runs before the `try` block,
so its failures propagate; inside the block, `BudgetExhaustedException` is
caught first (logging a warning, leaving all attributes untouched), and any
other `BaseException` is caught (logging a warning and setting
`_best_estimator = None`).  `self.trials` is assigned only after `optimize()`
returns normally; on the normal path the incumbent is decoded and refit on the
whole training set.  `fit` returns `self`, i.e. the updated `State`. -/
def SMACImpl.fit (w : World) (p : Params) (globalRng estimator : Nat) (s : State)
    (X_train : List Nat) (y_train : List Int) :
    Except PyExc (State × List LogEntry) :=
  match w.check_cv p.cv y_train with
  | .error e => .error e
  | .ok cvObj =>
    let rows := zipRows X_train y_train
    match smacOptimize w p cvObj globalRng estimator rows with
    | .budget _ logs => .ok (s, logs ++ [⟨.warning, none⟩])
    | .failed _ logs =>
      .ok ({ s with best_estimator := some none }, logs ++ [⟨.warning, none⟩])
    | .done incumbent hist logs =>
      let s1 : State := { s with trials := some hist }
      match w.lale_trainable_op_from_config estimator incumbent with
      | .error _ =>
        .ok ({ s1 with best_estimator := some none }, logs ++ [⟨.warning, none⟩])
      | .ok trainable =>
        match w.fitOp trainable rows with
        | .error _ =>
          .ok ({ s1 with best_estimator := some none }, logs ++ [⟨.warning, none⟩])
        | .ok trained =>
          .ok ({ s1 with best_estimator := some (some trained) }, logs)

/-- `SMACImpl.predict(X_eval)`.  Reading `self._best_estimator` raises
`AttributeError` when the attribute was never assigned; `None.predict(...)`
raises `AttributeError` as well, and the `except` clause catches only
`ValueError` (returning `None` and logging a warning). -/
def SMACImpl.predict (w : World) (s : State) (xEval : Nat) :
    Except PyExc (Option Nat) × List LogEntry :=
  match s.best_estimator with
  | none => (.error .attributeError, [])
  | some none => (.error .attributeError, [])
  | some (some trained) =>
    match w.predictOp trained xEval with
    | .ok predictions => (.ok (some predictions), [])
    | .error .valueError => (.ok none, [⟨.warning, none⟩])
    | .error e => (.error e, [])

/-- `SMACImpl.get_trials()`: returns `self.trials` unchanged. -/
def SMACImpl.get_trials (s : State) : Option (List RunRecord) := s.trials

/-- Result of `get_pipeline`: the stored Lale pipeline or its
sklearn-compatible wrapper. -/
inductive PipelineVal : Type where
  | laleOp : Nat → PipelineVal
  | sklearnOp : Nat → PipelineVal
deriving DecidableEq, Repr

/-- `SMACImpl.get_pipeline(pipeline_name, astype)`: rejects any non-`None`
`pipeline_name` before touching the stored estimator; reads
`getattr(self, '_best_estimator', None)`; returns it unconverted when it is
`None` or when `astype == 'lale'`; asserts `astype == 'sklearn'` and converts
otherwise. -/
def SMACImpl.get_pipeline (w : World) (s : State) (pipeline_name : Option Nat)
    (astype : String) : Except PyExc (Option PipelineVal) :=
  match pipeline_name with
  | some _ => .error .notImplementedError
  | none =>
    match s.best_estimator.getD none with
    | none => .ok none
    | some t =>
      if astype == "lale" then .ok (some (.laleOp t))
      else if astype == "sklearn" then .ok (some (.sklearnOp (w.make_sklearn_compat t)))
      else .error .assertionError

/-- Whether a failure (budget exhaustion, optimizer failure, or a failure
while decoding or refitting the incumbent) arises during the search logic of
`fit` on the given inputs. -/
def fitSearchFailed (w : World) (p : Params) (cvObj globalRng estimator : Nat)
    (rows : List (Nat × Int)) : Bool :=
  match smacOptimize w p cvObj globalRng estimator rows with
  | .budget _ _ => true
  | .failed _ _ => true
  | .done incumbent _ _ =>
    match w.lale_trainable_op_from_config estimator incumbent with
    | .error _ => true
    | .ok trainable =>
      match w.fitOp trainable rows with
      | .error _ => true
      | .ok _ => false

/-- The incumbent and run history of a normally returning `optimize()` call. -/
def optIncumbent : OptResult → Option (Nat × List RunRecord)
  | .done incumbent hist _ => some (incumbent, hist)
  | .budget _ _ => none
  | .failed _ _ => none

/-- Whether `incumbent` is the configuration of the minimum-cost record of
`hist` (vacuously true for an empty history). -/
def isMinOf (hist : List RunRecord) (incumbent : Nat) : Bool :=
  match argminRecord hist with
  | none => true
  | some a => a.config == incumbent && hist.all (fun r => a.cost ≤ r.cost)

/-- Whether an embedded Python computation returned normally. -/
def exceptOk {ε α : Type} : Except ε α → Bool
  | .ok _ => true
  | .error _ => false

/-! ### Concrete instances used for witnesses and counterexamples -/

/-- A base world: every external call succeeds; `shuffle` rotates the rows by
the ambient global RNG value; the score of the fallback split depends on the
validation rows it receives. -/
def W0 : World where
  check_cv := fun _ _ => .ok 0
  cvRun := fun _ _ _ _ => .ok (1, some 2, 3)
  shuffle := fun r rows =>
    rows.drop (r % (rows.length + 1)) ++ rows.take (r % (rows.length + 1))
  fitOp := fun t rows => .ok (t + rows.length)
  check_scoring := fun _ scoring => .ok scoring
  applyScorer := fun _ trained rows =>
    .ok ((rows.map (fun q => q.2)).foldl (fun a b => a + b) 0 + (trained : Int))
  predict_proba := fun t _ => .ok t
  log_loss := fun _ _ => .ok 5
  elapsed := fun _ => 7
  to_json := fun t => t + 100
  sample := fun _ i => i
  budgetHitAt := fun _ => false
  smacInternalError := none
  defaultConfig := 0
  lale_trainable_op_from_config := fun est c => .ok (est * 1000 + c)
  predictOp := fun t x => .ok (t + x)
  make_sklearn_compat := fun t => t + 1

/-- A world where every cross-validation attempt raises. -/
def Wcvfail : World := { W0 with cvRun := fun _ _ _ _ => .error (.other 0) }

/-- A world whose wall-clock budget is exhausted before the first trial. -/
def Wb : World := { W0 with budgetHitAt := fun _ => true }

/-- A world whose wall-clock budget is exhausted after the first trial. -/
def Wb2 : World := { W0 with budgetHitAt := fun i => decide (1 ≤ i) }

/-- A world where prediction raises `ValueError`. -/
def Wvalerr : World := { W0 with predictOp := fun _ _ => .error .valueError }

/-- A world where the optimizer itself fails irrecoverably. -/
def Wfail : World := { W0 with smacInternalError := some (.other 1) }

/-- A world where cross-validation succeeds but the log loss is not computable
for the estimator type. -/
def Wnoll : World := { W0 with cvRun := fun _ _ _ _ => .ok (1, none, 3) }

/-- Default hyperparameters for the concrete runs: one trial, no time budget. -/
def P0 : Params := ⟨1, 5, false, 0, 0, none⟩

/-- `P0` with `handle_cv_failure = True`. -/
def P6 : Params := ⟨1, 5, true, 0, 0, none⟩

/-- `P0` with a wall-clock budget. -/
def P3 : Params := ⟨1, 5, false, 0, 0, some 10⟩

/-- Two trials allowed, with a wall-clock budget. -/
def P9 : Params := ⟨2, 5, false, 0, 0, some 10⟩

/-- A five-row training set. -/
def X5 : List Nat := [0, 1, 2, 3, 4]

/-- Labels for `X5`. -/
def Y5 : List Int := [10, 20, 30, 40, 50]

/-- The paired rows of `(X5, Y5)`. -/
def R5 : List (Nat × Int) := zipRows X5 Y5

/-! ### Claims -/

/-- Claim C10: `get_pipeline` raises `NotImplementedError` for every
non-`None` `pipeline_name`, independently of the stored estimator, and when
the Best Estimator is absent it returns `None` for every `astype`, skipping
the sklearn conversion. -/
theorem get_pipeline_name_and_absent (w : World) (s s2 : State) (nm : Nat)
    (astype : String) :
    SMACImpl.get_pipeline w s (some nm) astype = .error .notImplementedError ∧
    SMACImpl.get_pipeline w s (some nm) astype
      = SMACImpl.get_pipeline w s2 (some nm) astype ∧
    (s.best_estimator = none ∨ s.best_estimator = some none →
      SMACImpl.get_pipeline w s none astype = .ok none) := by
  refine ⟨rfl, rfl, ?_⟩
  rintro (h | h) <;> simp [SMACImpl.get_pipeline, h]

/-- Witness for C10 at a fresh state and `astype = 'sklearn'`. -/
theorem get_pipeline_name_and_absent_witness :
    SMACImpl.get_pipeline W0 State.init (some 3) "sklearn"
      = .error .notImplementedError ∧
    SMACImpl.get_pipeline W0 State.init none "sklearn" = .ok none :=
  ⟨(get_pipeline_name_and_absent W0 State.init State.init 3 "sklearn").1,
   (get_pipeline_name_and_absent W0 State.init State.init 3 "sklearn").2.2
     (Or.inl rfl)⟩

/-- Claim C1 counterexample: on a state whose failed search stored
`_best_estimator = None`, `predict` raises `AttributeError` instead of
returning `None`: only `ValueError` is caught by its `except` clause. -/
theorem predict_absent_raises_cx :
    (SMACImpl.predict W0 ⟨some none, none⟩ 0).1 = .error .attributeError ∧
    (SMACImpl.predict W0 ⟨some none, none⟩ 0).1 ≠ .ok none := by
  exact ⟨rfl, by decide⟩

/-- Claim C1 (amended): when the stored estimator's `predict` raises
`ValueError`, `predict` returns `None` and logs a warning; but when the Best
Estimator is absent (attribute unset, or set to `None` by a failed search),
`predict` raises `AttributeError` rather than returning `None`. -/
theorem predict_valueerror_returns_none (w : World) (s : State) (x : Nat) :
    (s.best_estimator = none ∨ s.best_estimator = some none →
      SMACImpl.predict w s x = (.error .attributeError, [])) ∧
    (∀ t, s.best_estimator = some (some t) →
      w.predictOp t x = .error .valueError →
      SMACImpl.predict w s x = (.ok none, [⟨.warning, none⟩])) := by
  constructor
  · rintro (h | h) <;> simp [SMACImpl.predict, h]
  · intro t ht hp
    simp [SMACImpl.predict, ht, hp]

/-- Witness for the amended C1: a `ValueError` during prediction yields the
`None` sentinel and a warning. -/
theorem predict_valueerror_returns_none_witness :
    SMACImpl.predict Wvalerr ⟨some (some 5), none⟩ 0
      = (.ok none, [⟨.warning, none⟩]) :=
  (predict_valueerror_returns_none Wvalerr ⟨some (some 5), none⟩ 0).2 5 rfl rfl

/-- Claim C5: when cross-validation raises and `handle_cv_failure` is `False`,
`smac_train_test` logs a diagnostic containing the pipeline serialization and
re-raises; `f` adds a warning and propagates, so SMAC records the trial as
crashed with cost MAXINT. -/
theorem cv_failure_propagates (w : World) (p : Params)
    (cvObj globalRng trainable estimator config : Nat)
    (rows : List (Nat × Int)) (e : PyExc)
    (hmode : p.handle_cv_failure = false)
    (hfail : w.cvRun trainable cvObj rows p.scoring = .error e)
    (hdec : w.lale_trainable_op_from_config estimator config = .ok trainable) :
    smac_train_test w p cvObj globalRng trainable rows
      = (.error e, [⟨.debug, some (w.to_json trainable)⟩]) ∧
    f w p cvObj globalRng trainable rows
      = (.error e, [⟨.debug, some (w.to_json trainable)⟩, ⟨.warning, none⟩]) ∧
    lale_op_smac_tae w p cvObj globalRng estimator rows config
      = (⟨config, MAXINT, .crashed⟩,
         [⟨.debug, some (w.to_json trainable)⟩, ⟨.warning, none⟩]) := by
  have h1 : smac_train_test w p cvObj globalRng trainable rows
      = (.error e, [⟨.debug, some (w.to_json trainable)⟩]) := by
    simp [smac_train_test, cross_val_score_track_trials, hfail, hmode]
  have h2 : f w p cvObj globalRng trainable rows
      = (.error e, [⟨.debug, some (w.to_json trainable)⟩, ⟨.warning, none⟩]) := by
    simp [f, f_return_dict, h1]
  refine ⟨h1, h2, ?_⟩
  simp [lale_op_smac_tae, hdec, h2]

/-- Witness for C5: a crashed trial under `handle_cv_failure = False`. -/
theorem cv_failure_propagates_witness :
    f Wcvfail P0 0 0 1000 R5
      = (.error (.other 0), [⟨.debug, some 1100⟩, ⟨.warning, none⟩]) ∧
    lale_op_smac_tae Wcvfail P0 0 0 1 R5 0
      = (⟨0, MAXINT, .crashed⟩,
         [⟨.debug, some 1100⟩, ⟨.warning, none⟩]) :=
  ⟨(cv_failure_propagates Wcvfail P0 0 0 1000 1 0 R5 (.other 0) rfl rfl rfl).2.1,
   (cv_failure_propagates Wcvfail P0 0 0 1000 1 0 R5 (.other 0) rfl rfl rfl).2.2⟩

/-- Claim C8: on a trial whose cross-validated scoring succeeds, the objective
builds `return_dict` with loss = best_score − score (so a score equal to
best_score yields loss zero), the elapsed execution time, and the auxiliary
log-loss value, which is `0` when the log loss is not computable for the
estimator type; `f` returns that loss. -/
theorem trial_success_result (w : World) (p : Params)
    (cvObj globalRng trainable : Nat) (rows : List (Nat × Int))
    (score : Int) (llOpt : Option Int) (etime : Nat)
    (h : w.cvRun trainable cvObj rows p.scoring = .ok (score, llOpt, etime)) :
    (f_return_dict w p cvObj globalRng trainable rows).1
      = .ok ⟨p.best_score - score, etime, llOpt.getD 0⟩ ∧
    (f w p cvObj globalRng trainable rows).1 = .ok (p.best_score - score) ∧
    (score = p.best_score → p.best_score - score = 0) ∧
    (llOpt = none → llOpt.getD 0 = 0) := by
  have h1 : smac_train_test w p cvObj globalRng trainable rows
      = (.ok ⟨score, llOpt.getD 0, etime⟩, [⟨.debug, none⟩]) := by
    simp [smac_train_test, cross_val_score_track_trials, h]
  refine ⟨by simp [f_return_dict, h1], by simp [f, f_return_dict, h1], ?_, ?_⟩
  · intro hs
    rw [hs, sub_self]
  · intro hn
    rw [hn]
    rfl

/-- Witness for C8, on a trial whose log loss is not computable. -/
theorem trial_success_result_witness :
    (f_return_dict Wnoll P0 0 0 1000 R5).1 = .ok ⟨-1, 3, 0⟩ ∧
    (f Wnoll P0 0 0 1000 R5).1 = .ok (-1) := by
  refine ⟨?_, ?_⟩
  · simpa using (trial_success_result Wnoll P0 0 0 1000 R5 1 none 3 rfl).1
  · simpa using (trial_success_result Wnoll P0 0 0 1000 R5 1 none 3 rfl).2.1

/-- Claim C4: when cross-validation raises and `handle_cv_failure` is `True`,
the evaluator does not abort the trial: it draws a single randomized split
whose validation part is 20% of the rows (`ceil(0.20 * n)` rows, as sklearn's
`test_size=0.20` takes), fits the trainable on the remaining 80%, and the
score computed on the validation part becomes the trial's result. -/
theorem cv_failure_fallback (w : World) (p : Params)
    (cvObj globalRng trainable : Nat) (rows : List (Nat × Int)) (e : PyExc)
    (trained scorer proba : Nat) (score : Int)
    (hmode : p.handle_cv_failure = true)
    (hfail : w.cvRun trainable cvObj rows p.scoring = .error e)
    (hlen : (w.shuffle globalRng rows).length = rows.length)
    (hfit : w.fitOp trainable
      ((w.shuffle globalRng rows).drop (nTestRows rows.length)) = .ok trained)
    (hcs : w.check_scoring trainable p.scoring = .ok scorer)
    (hsc : w.applyScorer scorer trained
      ((w.shuffle globalRng rows).take (nTestRows rows.length)) = .ok score)
    (hpp : w.predict_proba trained
      ((w.shuffle globalRng rows).take (nTestRows rows.length)) = .ok proba) :
    exceptOk (smac_train_test w p cvObj globalRng trainable rows).1 = true ∧
    (smac_train_test w p cvObj globalRng trainable rows).1.map
      (fun o => o.cv_score) = .ok score ∧
    ((w.shuffle globalRng rows).take (nTestRows rows.length)).length
      = (rows.length + 4) / 5 ∧
    ((w.shuffle globalRng rows).drop (nTestRows rows.length)).length
      = rows.length - (rows.length + 4) / 5 ∧
    (f w p cvObj globalRng trainable rows).1 = .ok (p.best_score - score) := by
  have h5 : nTestRows rows.length ≤ rows.length := by
    unfold nTestRows
    omega
  have hval : ((w.shuffle globalRng rows).take (nTestRows rows.length)).length
      = (rows.length + 4) / 5 := by
    rw [List.length_take, hlen]
    exact min_eq_left h5
  have htr : ((w.shuffle globalRng rows).drop (nTestRows rows.length)).length
      = rows.length - (rows.length + 4) / 5 := by
    rw [List.length_drop, hlen]
    rfl
  cases hll : w.log_loss ((w.shuffle globalRng rows).take (nTestRows rows.length))
      proba with
  | ok v =>
    have hs : smac_train_test w p cvObj globalRng trainable rows
        = (.ok ⟨score, v, w.elapsed trainable⟩, []) := by
      simp [smac_train_test, cross_val_score_track_trials, hfail, hmode, hfit,
        hcs, hsc, hpp, hll]
    exact ⟨by simp [hs, exceptOk], by simp [hs, Except.map], hval, htr,
      by simp [f, f_return_dict, hs]⟩
  | error e2 =>
    have hs : smac_train_test w p cvObj globalRng trainable rows
        = (.ok ⟨score, 0, w.elapsed trainable⟩, [⟨.debug, none⟩]) := by
      simp [smac_train_test, cross_val_score_track_trials, hfail, hmode, hfit,
        hcs, hsc, hpp, hll]
    exact ⟨by simp [hs, exceptOk], by simp [hs, Except.map], hval, htr,
      by simp [f, f_return_dict, hs]⟩

/-- Witness for C4: a concrete trial whose cross-validation fails while
`handle_cv_failure = True`; the fallback split has 1 of 5 rows as validation
and the trial reports the fallback score. -/
theorem cv_failure_fallback_witness :
    exceptOk (smac_train_test Wcvfail P6 0 0 1000 R5).1 = true ∧
    (smac_train_test Wcvfail P6 0 0 1000 R5).1.map (fun o => o.cv_score)
      = .ok 1014 ∧
    ((Wcvfail.shuffle 0 R5).take (nTestRows R5.length)).length
      = (R5.length + 4) / 5 ∧
    ((Wcvfail.shuffle 0 R5).drop (nTestRows R5.length)).length
      = R5.length - (R5.length + 4) / 5 ∧
    (f Wcvfail P6 0 0 1000 R5).1 = .ok (-1014) := by
  have h := cv_failure_fallback Wcvfail P6 0 0 1000 R5 (.other 0) 1004 0 1004 1014
    rfl rfl rfl (by decide) rfl (by decide) rfl
  exact ⟨h.1, h.2.1, h.2.2.1, h.2.2.2.1, by simpa using h.2.2.2.2⟩

/-- Claim C2: with a fresh estimator state, any failure arising during the
search logic of `fit` (budget exhaustion, an optimizer failure, or a failure
while decoding or refitting the incumbent) is caught rather than raised:
`fit` returns `self`, a warning is logged, and the failure is detectable
afterwards through `get_pipeline()` returning `None`. -/
theorem fit_failures_caught (w : World) (p : Params) (globalRng estimator : Nat)
    (s : State) (X : List Nat) (y : List Int) (cvObj : Nat)
    (s2 : State) (logs : List LogEntry)
    (h1 : w.check_cv p.cv y = .ok cvObj)
    (h2 : s.best_estimator = none)
    (hfit : SMACImpl.fit w p globalRng estimator s X y = .ok (s2, logs))
    (hfl : fitSearchFailed w p cvObj globalRng estimator (zipRows X y) = true) :
    exceptOk (SMACImpl.fit w p globalRng estimator s X y) = true ∧
    SMACImpl.get_pipeline w s2 none "lale" = .ok none ∧
    LogEntry.mk .warning none ∈ logs := by
  refine ⟨by rw [hfit]; rfl, ?_⟩
  cases ho : smacOptimize w p cvObj globalRng estimator (zipRows X y) with
  | budget hist slogs =>
    simp only [SMACImpl.fit, h1, ho] at hfit
    obtain ⟨hs2, hlogs⟩ := Prod.mk.injEq .. ▸ Except.ok.inj hfit
    constructor
    · simp [SMACImpl.get_pipeline, ← hs2, h2]
    · rw [← hlogs]
      simp
  | failed e slogs =>
    simp only [SMACImpl.fit, h1, ho] at hfit
    obtain ⟨hs2, hlogs⟩ := Prod.mk.injEq .. ▸ Except.ok.inj hfit
    constructor
    · simp [SMACImpl.get_pipeline, ← hs2]
    · rw [← hlogs]
      simp
  | done inc hist slogs =>
    cases hd : w.lale_trainable_op_from_config estimator inc with
    | error e =>
      simp only [SMACImpl.fit, h1, ho, hd] at hfit
      obtain ⟨hs2, hlogs⟩ := Prod.mk.injEq .. ▸ Except.ok.inj hfit
      constructor
      · simp [SMACImpl.get_pipeline, ← hs2]
      · rw [← hlogs]
        simp
    | ok trainable =>
      cases hf2 : w.fitOp trainable (zipRows X y) with
      | error e =>
        simp only [SMACImpl.fit, h1, ho, hd, hf2] at hfit
        obtain ⟨hs2, hlogs⟩ := Prod.mk.injEq .. ▸ Except.ok.inj hfit
        constructor
        · simp [SMACImpl.get_pipeline, ← hs2]
        · rw [← hlogs]
          simp
      | ok trained =>
        exfalso
        simp [fitSearchFailed, ho, hd, hf2] at hfl

/-- Witness for C2: the optimizer fails irrecoverably; `fit` still returns,
logs a warning, and `get_pipeline()` reports the absent estimator. -/
theorem fit_failures_caught_witness :
    exceptOk (SMACImpl.fit Wfail P0 0 1 State.init [0] [1]) = true ∧
    SMACImpl.get_pipeline Wfail ⟨some none, none⟩ none "lale" = .ok none ∧
    LogEntry.mk .warning none ∈ [LogEntry.mk .warning none] :=
  fit_failures_caught Wfail P0 0 1 State.init [0] [1] 0 ⟨some none, none⟩
    [LogEntry.mk .warning none] rfl rfl (by decide) (by decide)

/-- Claim C3 counterexample: with the wall-clock budget exhausted before any
configuration completes, `fit` returns without raising and `get_pipeline()`
returns `None` as the claim says, but `predict` then raises `AttributeError`
instead of returning the absent result the claim promises. -/
theorem budget_predict_raises_cx :
    SMACImpl.fit Wb P3 0 1 State.init X5 Y5
      = .ok (State.init, [⟨.warning, none⟩]) ∧
    SMACImpl.get_pipeline Wb State.init none "lale" = .ok none ∧
    (SMACImpl.predict Wb State.init 0).1 = .error .attributeError ∧
    (SMACImpl.predict Wb State.init 0).1 ≠ .ok none := by
  exact ⟨by decide, rfl, rfl, by decide⟩

/-- Claim C3 (amended): if the wall-clock budget is exhausted before any
configuration completes, `fit` terminates without raising, leaves the Best
Estimator of a fresh instance absent, and `get_pipeline()` returns `None`;
`predict`, however, raises `AttributeError` on the absent estimator (its
`except` clause catches only `ValueError`) rather than returning `None`. -/
theorem budget_leaves_estimator_absent (w : World) (p : Params)
    (globalRng estimator : Nat) (s : State) (X : List Nat) (y : List Int)
    (cvObj x : Nat) (hist : List RunRecord) (slogs : List LogEntry)
    (h1 : w.check_cv p.cv y = .ok cvObj)
    (h2 : s.best_estimator = none)
    (ho : smacOptimize w p cvObj globalRng estimator (zipRows X y)
      = .budget hist slogs) :
    SMACImpl.fit w p globalRng estimator s X y
      = .ok (s, slogs ++ [⟨.warning, none⟩]) ∧
    SMACImpl.get_pipeline w s none "lale" = .ok none ∧
    (SMACImpl.predict w s x).1 = .error .attributeError := by
  refine ⟨?_, ?_, ?_⟩
  · simp [SMACImpl.fit, h1, ho]
  · simp [SMACImpl.get_pipeline, h2]
  · simp [SMACImpl.predict, h2]

/-- Witness for the amended C3: the budget expires before the first trial. -/
theorem budget_leaves_estimator_absent_witness :
    SMACImpl.fit Wb P3 0 1 State.init [0] [1]
      = .ok (State.init, [] ++ [⟨.warning, none⟩]) ∧
    SMACImpl.get_pipeline Wb State.init none "lale" = .ok none ∧
    (SMACImpl.predict Wb State.init 7).1 = .error .attributeError :=
  budget_leaves_estimator_absent Wb P3 0 1 State.init [0] [1] 0 7 [] []
    rfl rfl (by decide)

/-- The running minimum kept by the incumbent fold is bounded by its seed and
by every element folded over. -/
theorem foldlMin_le (rs : List RunRecord) (a : RunRecord) :
    ((rs.foldl (fun best x => if x.cost < best.cost then x else best) a).cost
      ≤ a.cost) ∧
    ∀ x ∈ rs,
      (rs.foldl (fun best x => if x.cost < best.cost then x else best) a).cost
        ≤ x.cost := by
  induction rs generalizing a with
  | nil =>
    refine ⟨le_refl _, ?_⟩
    intro x hx
    simp at hx
  | cons b bs ih =>
    simp only [List.foldl_cons]
    have hstep1 : (if b.cost < a.cost then b else a).cost ≤ a.cost := by
      split
      · exact le_of_lt (by assumption)
      · exact le_refl _
    have hstep2 : (if b.cost < a.cost then b else a).cost ≤ b.cost := by
      split
      · exact le_refl _
      · exact le_of_not_lt (by assumption)
    have h := ih (if b.cost < a.cost then b else a)
    refine ⟨le_trans h.1 hstep1, ?_⟩
    intro x hx
    rcases List.mem_cons.mp hx with hx | hx
    · subst hx
      exact le_trans h.1 hstep2
    · exact h.2 x hx

/-- The incumbent the search reports is the configuration of a minimum-cost
record of the run history. -/
theorem isMinOf_incumbent (hist : List RunRecord) (d : Nat) :
    isMinOf hist (incumbentOf hist d) = true := by
  cases hist with
  | nil => rfl
  | cons r rs =>
    have h := foldlMin_le rs r
    simp only [isMinOf, incumbentOf, argminRecord]
    rw [Bool.and_eq_true, beq_iff_eq, List.all_eq_true]
    refine ⟨rfl, ?_⟩
    intro x hx
    rw [decide_eq_true_eq]
    rcases List.mem_cons.mp hx with hx | hx
    · subst hx
      exact h.1
    · exact h.2 x hx

/-- A normal return of the modelled `optimize` reports the minimum-cost
configuration of the history it returns. -/
theorem smacOptimize_done_inc (w : World) (p : Params)
    (cvObj globalRng estimator : Nat) (rows : List (Nat × Int))
    (inc : Nat) (hist : List RunRecord) (slogs : List LogEntry)
    (h : smacOptimize w p cvObj globalRng estimator rows = .done inc hist slogs) :
    inc = incumbentOf hist w.defaultConfig := by
  unfold smacOptimize at h
  cases hie : w.smacInternalError with
  | some e =>
    rw [hie] at h
    simp at h
  | none =>
    rw [hie] at h
    rcases hsl : searchLoop w p cvObj globalRng estimator rows 0 p.max_evals with
      ⟨hist2, logs2, b⟩
    rw [hsl] at h
    cases b with
    | true => simp at h
    | false =>
      simp only [OptResult.done.injEq] at h
      obtain ⟨hi, hh, _⟩ := h
      rw [← hi, ← hh]

/-- Claim C7: whenever `fit` on a fresh state stores a Best Estimator, the
optimizer returned normally with some incumbent and history; the stored run
history is that history, the incumbent is the configuration with minimum
observed cost, and the stored estimator is the incumbent's decoded pipeline
refit on the entire training set passed to `fit`. -/
theorem fit_best_estimator_minloss (w : World) (p : Params)
    (globalRng estimator : Nat) (s : State) (X : List Nat) (y : List Int)
    (cvObj : Nat) (s2 : State) (logs : List LogEntry) (trained : Nat)
    (h1 : w.check_cv p.cv y = .ok cvObj)
    (h2 : s.best_estimator = none)
    (hfit : SMACImpl.fit w p globalRng estimator s X y = .ok (s2, logs))
    (hbest : s2.best_estimator = some (some trained)) :
    (optIncumbent
      (smacOptimize w p cvObj globalRng estimator (zipRows X y))).isSome = true ∧
    ∀ inc hist,
      optIncumbent (smacOptimize w p cvObj globalRng estimator (zipRows X y))
          = some (inc, hist) →
      s2.trials = some hist ∧
      isMinOf hist inc = true ∧
      (w.lale_trainable_op_from_config estimator inc).toOption.bind
          (fun trainable => (w.fitOp trainable (zipRows X y)).toOption)
        = some trained := by
  cases ho : smacOptimize w p cvObj globalRng estimator (zipRows X y) with
  | budget hist slogs =>
    exfalso
    simp only [SMACImpl.fit, h1, ho] at hfit
    obtain ⟨hs2, _⟩ := Prod.mk.injEq .. ▸ Except.ok.inj hfit
    rw [← hs2, h2] at hbest
    cases hbest
  | failed e slogs =>
    exfalso
    simp only [SMACImpl.fit, h1, ho] at hfit
    obtain ⟨hs2, _⟩ := Prod.mk.injEq .. ▸ Except.ok.inj hfit
    rw [← hs2] at hbest
    cases hbest
  | done inc hist slogs =>
    have hinc : inc = incumbentOf hist w.defaultConfig :=
      smacOptimize_done_inc w p cvObj globalRng estimator (zipRows X y)
        inc hist slogs ho
    cases hd : w.lale_trainable_op_from_config estimator inc with
    | error e =>
      exfalso
      simp only [SMACImpl.fit, h1, ho, hd] at hfit
      obtain ⟨hs2, _⟩ := Prod.mk.injEq .. ▸ Except.ok.inj hfit
      rw [← hs2] at hbest
      cases hbest
    | ok trainable =>
      cases hf2 : w.fitOp trainable (zipRows X y) with
      | error e =>
        exfalso
        simp only [SMACImpl.fit, h1, ho, hd, hf2] at hfit
        obtain ⟨hs2, _⟩ := Prod.mk.injEq .. ▸ Except.ok.inj hfit
        rw [← hs2] at hbest
        cases hbest
      | ok trained2 =>
        simp only [SMACImpl.fit, h1, ho, hd, hf2] at hfit
        obtain ⟨hs2, _⟩ := Prod.mk.injEq .. ▸ Except.ok.inj hfit
        have htr : trained2 = trained := by
          rw [← hs2] at hbest
          exact (Option.some.inj (Option.some.inj hbest))
        refine ⟨by simp [optIncumbent], ?_⟩
        intro inc2 hist2 heq
        simp only [optIncumbent, Option.some.injEq, Prod.mk.injEq] at heq
        obtain ⟨hi2, hh2⟩ := heq
        subst hi2
        subst hh2
        refine ⟨by rw [← hs2], ?_, ?_⟩
        · rw [hinc]
          exact isMinOf_incumbent hist w.defaultConfig
        · simp [hd, hf2, htr, Except.toOption]

/-- Run history of the concrete one-trial search used by the C7 witness. -/
def H7 : List RunRecord := [⟨0, -1, .success⟩]

/-- State after the concrete successful `fit` used by the C7 witness. -/
def S7 : State := ⟨some (some 1005), some H7⟩

/-- Witness for C7: the one-trial search stores the incumbent's pipeline,
refit on all five training rows. -/
theorem fit_best_estimator_minloss_witness :
    (optIncumbent (smacOptimize W0 P0 0 0 1 (zipRows X5 Y5))).isSome = true ∧
    (S7.trials = some H7 ∧
      isMinOf H7 0 = true ∧
      (W0.lale_trainable_op_from_config 1 0).toOption.bind
          (fun trainable => (W0.fitOp trainable (zipRows X5 Y5)).toOption)
        = some 1005) := by
  have h := fit_best_estimator_minloss W0 P0 0 1 State.init X5 Y5 0 S7
    [LogEntry.mk .debug none] 1005 rfl rfl (by decide) rfl
  exact ⟨h.1, h.2 0 H7 (by decide)⟩

/-- Claim C9 counterexample: a search that executes one trial and then hits
the wall-clock budget.  `optimize` raises `BudgetExhaustedException` before
`self.trials` is assigned, so after `fit` returns, `get_trials()` is `None`
even though the optimizer's run history holds the executed trial. -/
theorem get_trials_not_updated_cx :
    SMACImpl.fit Wb2 P9 0 1 State.init X5 Y5
      = .ok (State.init, [⟨.debug, none⟩, ⟨.warning, none⟩]) ∧
    SMACImpl.get_trials State.init = none ∧
    smacOptimize Wb2 P9 0 0 1 (zipRows X5 Y5)
      = .budget [⟨0, -1, .success⟩] [⟨.debug, none⟩] := by
  exact ⟨by decide, rfl, by decide⟩

/-- Claim C9 (amended): `self.trials` is assigned the search's run history
exactly when `optimize()` returns normally (also when the later refit of the
incumbent fails); when the search ends in budget exhaustion or in a failure
inside `optimize`, `self.trials` is left unchanged — `None` on a fresh
instance — so that search's executed trials are not retrievable through
`get_trials()`. -/
theorem get_trials_after_fit (w : World) (p : Params) (globalRng estimator : Nat)
    (s : State) (X : List Nat) (y : List Int) (cvObj : Nat)
    (s2 : State) (logs : List LogEntry)
    (h1 : w.check_cv p.cv y = .ok cvObj)
    (hfit : SMACImpl.fit w p globalRng estimator s X y = .ok (s2, logs)) :
    (∀ inc hist slogs,
      smacOptimize w p cvObj globalRng estimator (zipRows X y)
          = .done inc hist slogs →
      SMACImpl.get_trials s2 = some hist) ∧
    (∀ hist slogs,
      smacOptimize w p cvObj globalRng estimator (zipRows X y)
          = .budget hist slogs →
      SMACImpl.get_trials s2 = SMACImpl.get_trials s) ∧
    (∀ e slogs,
      smacOptimize w p cvObj globalRng estimator (zipRows X y)
          = .failed e slogs →
      SMACImpl.get_trials s2 = SMACImpl.get_trials s) := by
  cases ho : smacOptimize w p cvObj globalRng estimator (zipRows X y) with
  | budget hist slogs =>
    simp only [SMACImpl.fit, h1, ho] at hfit
    obtain ⟨hs2, _⟩ := Prod.mk.injEq .. ▸ Except.ok.inj hfit
    refine ⟨?_, ?_, ?_⟩
    · intro inc hist2 slogs2 heq
      cases heq
    · intro hist2 slogs2 heq
      rw [← hs2]
    · intro e slogs2 heq
      cases heq
  | failed e slogs =>
    simp only [SMACImpl.fit, h1, ho] at hfit
    obtain ⟨hs2, _⟩ := Prod.mk.injEq .. ▸ Except.ok.inj hfit
    refine ⟨?_, ?_, ?_⟩
    · intro inc hist2 slogs2 heq
      cases heq
    · intro hist2 slogs2 heq
      cases heq
    · intro e2 slogs2 heq
      rw [← hs2]
      rfl
  | done inc hist slogs =>
    have htr : s2.trials = some hist := by
      cases hd : w.lale_trainable_op_from_config estimator inc with
      | error e =>
        simp only [SMACImpl.fit, h1, ho, hd] at hfit
        obtain ⟨hs2, _⟩ := Prod.mk.injEq .. ▸ Except.ok.inj hfit
        rw [← hs2]
      | ok trainable =>
        cases hf2 : w.fitOp trainable (zipRows X y) with
        | error e =>
          simp only [SMACImpl.fit, h1, ho, hd, hf2] at hfit
          obtain ⟨hs2, _⟩ := Prod.mk.injEq .. ▸ Except.ok.inj hfit
          rw [← hs2]
        | ok trained =>
          simp only [SMACImpl.fit, h1, ho, hd, hf2] at hfit
          obtain ⟨hs2, _⟩ := Prod.mk.injEq .. ▸ Except.ok.inj hfit
          rw [← hs2]
    refine ⟨?_, ?_, ?_⟩
    · intro inc2 hist2 slogs2 heq
      obtain ⟨_, hh, _⟩ := OptResult.done.injEq .. ▸ heq
      rw [← hh]
      exact htr
    · intro hist2 slogs2 heq
      cases heq
    · intro e slogs2 heq
      cases heq

/-- Run history of the concrete one-trial search used by the C9 witness. -/
def H9 : List RunRecord := [⟨0, -1, .success⟩]

/-- State after the concrete successful `fit` used by the C9 witness. -/
def S9 : State := ⟨some (some 1005), some H9⟩

/-- Witness for the amended C9: after a search whose `optimize` returns
normally, `get_trials()` yields that search's run history. -/
theorem get_trials_after_fit_witness :
    SMACImpl.get_trials S9 = some H9 := by
  have h := get_trials_after_fit W0 P0 0 1 State.init X5 Y5 0 S9
    [LogEntry.mk .debug none] rfl (by decide)
  exact h.1 0 H9 [LogEntry.mk .debug none] (by decide)

/-- Claim C6 counterexample: two `fit` runs with identical estimator,
hyperparameters, seed, and training data, differing only in the ambient
global RNG state consumed by the fallback `train_test_split` (which the code
calls without a `random_state`), produce different run histories and hence
different results. -/
theorem fit_not_deterministic_cx :
    SMACImpl.fit Wcvfail P6 0 1 State.init X5 Y5
      ≠ SMACImpl.fit Wcvfail P6 1 1 State.init X5 Y5 := by
  decide

/-- Claim C6 (amended): the optimizer's sampling is governed by the fixed
seed 42, so two `fit` runs with identical inputs produce identical results —
run history and Best Estimator included — provided `handle_cv_failure` is
`False` or every cross-validation attempt succeeds.  The fallback
`train_test_split` taken when cross-validation raises draws from the unseeded
global RNG, which the fixed seed does not govern. -/
theorem fit_deterministic_without_fallback (w : World) (p : Params)
    (estimator : Nat) (s : State) (X : List Nat) (y : List Int)
    (rngA rngB : Nat)
    (h : p.handle_cv_failure = false ∨
      ∀ t cvObj rows scoring, exceptOk (w.cvRun t cvObj rows scoring) = true) :
    SMACImpl.fit w p rngA estimator s X y
      = SMACImpl.fit w p rngB estimator s X y := by
  have hstt : ∀ cvObj t rows,
      smac_train_test w p cvObj rngA t rows
        = smac_train_test w p cvObj rngB t rows := by
    intro cvObj t rows
    unfold smac_train_test
    cases hcv : cross_val_score_track_trials w t cvObj rows p.scoring with
    | ok v => rfl
    | error e =>
      rcases h with hmode | hok
      · simp [hmode]
      · exfalso
        unfold cross_val_score_track_trials at hcv
        cases hr : w.cvRun t cvObj rows p.scoring with
        | ok v =>
          rw [hr] at hcv
          cases hcv
        | error e2 =>
          have hcontra := hok t cvObj rows p.scoring
          rw [hr] at hcontra
          cases hcontra
  have hf : ∀ cvObj t rows,
      f w p cvObj rngA t rows = f w p cvObj rngB t rows := by
    intro cvObj t rows
    unfold f f_return_dict
    rw [hstt]
  have htae : ∀ cvObj est rows c,
      lale_op_smac_tae w p cvObj rngA est rows c
        = lale_op_smac_tae w p cvObj rngB est rows c := by
    intro cvObj est rows c
    unfold lale_op_smac_tae
    simp only [hf]
  have hloop : ∀ cvObj est rows fuel i,
      searchLoop w p cvObj rngA est rows i fuel
        = searchLoop w p cvObj rngB est rows i fuel := by
    intro cvObj est rows fuel
    induction fuel with
    | zero =>
      intro i
      rfl
    | succ n ih =>
      intro i
      unfold searchLoop
      simp only [htae, ih]
  have hopt : ∀ cvObj est rows,
      smacOptimize w p cvObj rngA est rows
        = smacOptimize w p cvObj rngB est rows := by
    intro cvObj est rows
    unfold smacOptimize
    simp only [hloop]
  unfold SMACImpl.fit
  simp only [hopt]

/-- Witness for the amended C6: with `handle_cv_failure = False`, two runs
differing only in the ambient global RNG coincide. -/
theorem fit_deterministic_without_fallback_witness :
    SMACImpl.fit W0 P0 0 1 State.init X5 Y5
      = SMACImpl.fit W0 P0 5 1 State.init X5 Y5 :=
  fit_deterministic_without_fallback W0 P0 1 State.init X5 Y5 0 5 (Or.inl rfl)
